import Mathlib

/-!
Verification of the CQL mini query engine (src: lexer.py, parser.py, main.py).

Shallow embedding conventions:
* Python strings are Lean `String`; Python `float` is `PyFloat`, a rational
  together with the special values inf, -inf and nan.  Decimal-to-double
  rounding is not modelled: every decimal literal is kept exact.  None of the
  facts proved below depend on that rounding.
* Python dictionaries are association lists in insertion order with Python's
  overwrite-in-place-or-append assignment semantics.
* Python exceptions are `Except String`; an exception caught and turned into
  a printed message plus a default value is evaluated to that value
  (printing itself is not modelled).
-/

namespace CQL

/-- Python float values: a finite value (kept exact as a rational), the two
infinities and nan. -/
inductive PyFloat where
  | fin (q : ℚ)
  | inf
  | ninf
  | nan
deriving DecidableEq, Repr

/-- A Python scalar as stored in rows or carried by literals: `str`, `int`
or `float`. -/
inductive PyVal where
  | str (s : String)
  | int (n : ℤ)
  | float (f : PyFloat)
deriving DecidableEq, Repr

/-- ASCII whitespace as stripped by Python's `str.strip()` and `float()`.
(Python also strips a few unicode space characters; all data here is ASCII.) -/
def pyWS (c : Char) : Bool :=
  c = ' ' || c = '\t' || c = '\n' || c = '\r' || c = '\x0b' || c = '\x0c'

/-- Strip leading and trailing whitespace from a character list. -/
def stripWS (cs : List Char) : List Char :=
  ((cs.dropWhile pyWS).reverse.dropWhile pyWS).reverse

/-- Python `str.strip()`. -/
def pyStrip (s : String) : String := String.mk (stripWS s.data)

/-- Digit value of an ASCII digit character. -/
def digitVal (c : Char) : ℕ := c.toNat - 48

/-- Parse a Python `digitpart`: `digit (("_")? digit)*` (PEP 515
underscores allowed between digits).  Returns the value, the number of
digits, and the remaining characters; `none` if no leading digit. -/
def digitPartGo (v k : ℕ) : List Char → ℕ × ℕ × List Char
  | '_' :: c :: rest =>
    if c.isDigit then digitPartGo (10 * v + digitVal c) (k + 1) rest
    else (v, k, '_' :: c :: rest)
  | c :: rest =>
    if c.isDigit then digitPartGo (10 * v + digitVal c) (k + 1) rest
    else (v, k, c :: rest)
  | [] => (v, k, [])

/-- See `digitPartGo`. -/
def digitPart : List Char → Option (ℕ × ℕ × List Char)
  | c :: rest => if c.isDigit then some (digitPartGo (digitVal c) 1 rest) else none
  | [] => none

/-- Parse the exponent digits (after `e`/`E`): optional sign then a
digitpart. -/
def parseExpPart (cs : List Char) : Option (ℤ × List Char) :=
  match cs with
  | '+' :: r => (digitPart r).map (fun p => ((p.1 : ℤ), p.2.2))
  | '-' :: r => (digitPart r).map (fun p => (-(p.1 : ℤ), p.2.2))
  | r => (digitPart r).map (fun p => ((p.1 : ℤ), p.2.2))

/-- Apply an optional exponent suffix to a mantissa; fails unless the whole
rest of the input is consumed. -/
def applyExp (q : ℚ) : List Char → Option ℚ
  | [] => some q
  | 'e' :: r => (parseExpPart r).bind (fun p => if p.2 = [] then some (q * 10 ^ p.1) else none)
  | 'E' :: r => (parseExpPart r).bind (fun p => if p.2 = [] then some (q * 10 ^ p.1) else none)
  | _ => none

/-- Parse an unsigned decimal float literal: `digitpart [. [digitpart]] [exp]`
or `. digitpart [exp]`. -/
def parseDecimal (cs : List Char) : Option ℚ :=
  match digitPart cs with
  | some (ip, _, rest) =>
    match rest with
    | '.' :: r2 =>
      match digitPart r2 with
      | some (fp, k, r3) => applyExp ((ip : ℚ) + (fp : ℚ) / 10 ^ k) r3
      | none => applyExp (ip : ℚ) r2
    | _ => applyExp (ip : ℚ) rest
  | none =>
    match cs with
    | '.' :: r2 =>
      match digitPart r2 with
      | some (fp, k, r3) => applyExp ((fp : ℚ) / 10 ^ k) r3
      | none => none
    | _ => none

/-- Lower-case a character list. -/
def lowerList (cs : List Char) : List Char := cs.map Char.toLower

/-- Python's `float(str)` conversion; `none` models ValueError.  Accepts
optional surrounding whitespace, an optional sign, then `inf`, `infinity`
or `nan` (case-insensitive) or a decimal literal. -/
def pyFloatOfChars (cs0 : List Char) : Option PyFloat :=
  match stripWS cs0 with
  | [] => none
  | cs1 =>
    let sgn : Bool × List Char :=
      match cs1 with
      | '+' :: r => (false, r)
      | '-' :: r => (true, r)
      | r => (false, r)
    let neg := sgn.1
    let cs := sgn.2
    let low := lowerList cs
    if low = ['i', 'n', 'f'] || low = ['i', 'n', 'f', 'i', 'n', 'i', 't', 'y'] then
      some (if neg then .ninf else .inf)
    else if low = ['n', 'a', 'n'] then
      some .nan
    else
      match parseDecimal cs with
      | some q => some (.fin (if neg then -q else q))
      | none => none

/-- Python's `float(str)` on a `String`. -/
def pyFloatOfString (s : String) : Option PyFloat := pyFloatOfChars s.data

/-- Python's `int(str)` conversion; `none` models ValueError.  Optional
whitespace, optional sign, then a digitpart consuming everything. -/
def pyIntOfString (s : String) : Option ℤ :=
  match stripWS s.data with
  | [] => none
  | cs1 =>
    let sgn : Bool × List Char :=
      match cs1 with
      | '+' :: r => (false, r)
      | '-' :: r => (true, r)
      | r => (false, r)
    match digitPart sgn.2 with
    | some (v, _, []) => some (if sgn.1 then -(v : ℤ) else (v : ℤ))
    | _ => none

/-- Python `int(f)` for a finite float: truncation toward zero. -/
def qTrunc (q : ℚ) : ℤ := if q < 0 then -⌊-q⌋ else ⌊q⌋

/-- Numeric view of a scalar: Python compares `int` and `float` uniformly
as numbers; a string has no numeric view. -/
def PyVal.toNum : PyVal → Option PyFloat
  | .int n => some (.fin (n : ℚ))
  | .float f => some f
  | .str _ => none

/-- `a == b` on floats: nan equals nothing, each infinity equals itself. -/
def PyFloat.eqB : PyFloat → PyFloat → Bool
  | .fin a, .fin b => decide (a = b)
  | .inf, .inf => true
  | .ninf, .ninf => true
  | _, _ => false

/-- `a < b` on floats: any comparison against nan is false. -/
def PyFloat.ltB : PyFloat → PyFloat → Bool
  | .nan, _ => false
  | _, .nan => false
  | .fin a, .fin b => decide (a < b)
  | .fin _, .inf => true
  | .fin _, .ninf => false
  | .inf, _ => false
  | .ninf, .ninf => false
  | .ninf, _ => true

/-- `a <= b` on floats: any comparison against nan is false. -/
def PyFloat.leB : PyFloat → PyFloat → Bool
  | .nan, _ => false
  | _, .nan => false
  | .fin a, .fin b => decide (a ≤ b)
  | .fin _, .inf => true
  | .fin _, .ninf => false
  | .inf, .inf => true
  | .inf, _ => false
  | .ninf, _ => true

/-- Python `a == b` for the scalars in play: strings structurally, numbers
numerically (mixed int/float allowed), and a string never equals a number.
Total: `==` does not raise. -/
def pyEqB (a b : PyVal) : Bool :=
  match a, b with
  | .str s, .str t => decide (s = t)
  | _, _ =>
    match a.toNum, b.toNum with
    | some x, some y => x.eqB y
    | _, _ => false

/-- Python `a < b`: strings lexicographically by code point, numbers
numerically; comparing a string with a number raises TypeError. -/
def pyLtB (a b : PyVal) : Except String Bool :=
  match a, b with
  | .str s, .str t => .ok (decide (s < t))
  | _, _ =>
    match a.toNum, b.toNum with
    | some x, some y => .ok (x.ltB y)
    | _, _ => .error "TypeError"

/-- Python `a <= b`; see `pyLtB`. -/
def pyLeB (a b : PyVal) : Except String Bool :=
  match a, b with
  | .str s, .str t => .ok (decide (s ≤ t))
  | _, _ =>
    match a.toNum, b.toNum with
    | some x, some y => .ok (x.leB y)
    | _, _ => .error "TypeError"

/-- `d[k] = v` on a Python dict as an association list: overwrite in place
if the key is present, otherwise append. -/
def listDictSet {κ ν : Type} [DecidableEq κ] (d : List (κ × ν)) (k : κ) (v : ν) :
    List (κ × ν) :=
  if d.any (fun p => decide (p.1 = k)) then
    d.map (fun p => if p.1 = k then (k, v) else p)
  else d ++ [(k, v)]

/-- `d.get(k)` / `d[k]`: the value of the (unique) binding of `k`. -/
def listDictGet {κ ν : Type} [DecidableEq κ] : List (κ × ν) → κ → Option ν
  | [], _ => none
  | p :: d, k => if p.1 = k then some p.2 else listDictGet d k

/-- `k in d`. -/
def listDictMem {κ ν : Type} [DecidableEq κ] (d : List (κ × ν)) (k : κ) : Bool :=
  d.any (fun p => decide (p.1 = k))

/-- `d.pop(k)` (the removal part; the popped value is read separately). -/
def listDictPop {κ ν : Type} [DecidableEq κ] (d : List (κ × ν)) (k : κ) :
    List (κ × ν) :=
  d.filter (fun p => !(decide (p.1 = k)))

/-- `d1.update(d2)`: assign every binding of `d2` into `d1`, left to right. -/
def listDictUpdate {κ ν : Type} [DecidableEq κ] (d1 d2 : List (κ × ν)) :
    List (κ × ν) :=
  d2.foldl (fun acc p => listDictSet acc p.1 p.2) d1

/-- One data row: a Python dict from column name to scalar, in insertion
order. -/
abbrev Row := List (String × PyVal)

/-- `s.replace(".", "", 1)`: remove only the first dot. -/
def removeFirstDot : List Char → List Char
  | [] => []
  | '.' :: r => r
  | c :: r => c :: removeFirstDot r

/-- Python `str.isdigit()` restricted to ASCII: nonempty and all digits. -/
def pyIsDigit (cs : List Char) : Bool := !cs.isEmpty && cs.all Char.isDigit

/-- The numeric-looking test the evaluator applies to a WHERE literal:
`target_value.replace(".", "", 1).isdigit()`. -/
def looksNumericStr (s : String) : Bool := pyIsDigit (removeFirstDot s.data)

/-! ### Sorting a row's items

`select_rows` and `join_tables` deduplicate via `tuple(sorted(row.items()))`.
Python sorts the `(name, value)` tuples lexicographically; since the keys of
one dict are distinct, the value components are never actually compared, so
any total antisymmetric tie-break order on values agrees with Python.
Key and set-membership comparisons use structural equality here; Python's
`==` agrees with it on the string values this program stores in rows (its
cross-type numeric equality, `1 == 1.0`, never arises there). -/

/-- Tie-break total order on float values (syntactic, used only for
sorting a row's items; see above). -/
def pfLeB : PyFloat → PyFloat → Bool
  | .fin a, .fin b => decide (a ≤ b)
  | .fin _, _ => true
  | _, .fin _ => false
  | .inf, _ => true
  | _, .inf => false
  | .ninf, _ => true
  | _, .ninf => false
  | .nan, .nan => true

/-- Tie-break total order on scalar values (see `pfLeB`). -/
def pvLeB : PyVal → PyVal → Bool
  | .str s, .str t => decide (s ≤ t)
  | .str _, _ => true
  | _, .str _ => false
  | .int m, .int n => decide (m ≤ n)
  | .int _, _ => true
  | _, .int _ => false
  | .float f, .float g => pfLeB f g

/-- Python's lexicographic order on `(name, value)` tuples: name first by
code point, value only on a name tie. -/
def pairLeB (a b : String × PyVal) : Bool :=
  decide (a.1 < b.1) || (decide (a.1 = b.1) && pvLeB a.2 b.2)

/-- `pairLeB` as a relation, for `List.insertionSort`. -/
def pairLE (a b : String × PyVal) : Prop := pairLeB a b = true

instance : DecidableRel pairLE := fun a b => by unfold pairLE; infer_instance

theorem pfLeB_total (a b : PyFloat) : pfLeB a b = true ∨ pfLeB b a = true := by
  cases a <;> cases b <;> simp [pfLeB]
  exact le_total _ _

theorem pfLeB_antisymm {a b : PyFloat} (h1 : pfLeB a b = true) (h2 : pfLeB b a = true) :
    a = b := by
  cases a <;> cases b <;> simp_all [pfLeB]
  exact le_antisymm h1 h2

theorem pfLeB_trans {a b c : PyFloat} (h1 : pfLeB a b = true) (h2 : pfLeB b c = true) :
    pfLeB a c = true := by
  cases a <;> cases b <;> cases c <;> simp_all [pfLeB]
  exact h1.trans h2

theorem pvLeB_total (a b : PyVal) : pvLeB a b = true ∨ pvLeB b a = true := by
  cases a <;> cases b <;> simp [pvLeB]
  case str.str s t => exact le_total _ _
  case int.int m n => exact le_total m n
  case float.float f g => exact pfLeB_total f g

theorem pvLeB_antisymm {a b : PyVal} (h1 : pvLeB a b = true) (h2 : pvLeB b a = true) :
    a = b := by
  cases a <;> cases b <;> simp_all [pvLeB]
  case str.str => exact String.ext (le_antisymm h1 h2)
  case int.int => exact le_antisymm h1 h2
  case float.float => exact pfLeB_antisymm h1 h2

theorem pvLeB_trans {a b c : PyVal} (h1 : pvLeB a b = true) (h2 : pvLeB b c = true) :
    pvLeB a c = true := by
  cases a <;> cases b <;> cases c <;> simp_all [pvLeB]
  case str.str.str => exact h1.trans h2
  case int.int.int => exact h1.trans h2
  case float.float.float => exact pfLeB_trans h1 h2

instance : IsTotal (String × PyVal) pairLE where
  total a b := by
    unfold pairLE pairLeB
    rcases lt_trichotomy a.1 b.1 with h | h | h
    · left; simp [h]
    · rcases pvLeB_total a.2 b.2 with hv | hv
      · left; simp [h, hv]
      · right; simp [h.symm, hv]
    · right; simp [h]

instance : IsTrans (String × PyVal) pairLE where
  trans a b c h1 h2 := by
    unfold pairLE pairLeB at h1 h2 ⊢
    simp only [Bool.or_eq_true, Bool.and_eq_true, decide_eq_true_eq] at h1 h2 ⊢
    rcases h1 with h1 | ⟨h1e, h1v⟩ <;> rcases h2 with h2 | ⟨h2e, h2v⟩
    · exact Or.inl (h1.trans h2)
    · exact Or.inl (h2e ▸ h1)
    · exact Or.inl (h1e ▸ h2)
    · exact Or.inr ⟨h1e.trans h2e, pvLeB_trans h1v h2v⟩

instance : IsAntisymm (String × PyVal) pairLE where
  antisymm a b h1 h2 := by
    unfold pairLE pairLeB at h1 h2
    simp only [Bool.or_eq_true, Bool.and_eq_true, decide_eq_true_eq] at h1 h2
    rcases h1 with h1 | ⟨h1e, h1v⟩ <;> rcases h2 with h2 | ⟨h2e, h2v⟩
    · exact absurd (h1.trans h2) (lt_irrefl _)
    · exact absurd h1 (h2e ▸ lt_irrefl _)
    · exact absurd h2 (h1e ▸ lt_irrefl _)
    · exact Prod.ext h1e (pvLeB_antisymm h1v h2v)

/-- `tuple(sorted(row.items()))`: the canonical form under which rows are
compared in the seen-sets of `select_rows` and `join_tables`. -/
def rowKey (row : Row) : Row := List.insertionSort pairLE row

/-- Two rows have the same key iff they are permutations of one another,
i.e. iff they agree as sets of (column, value) pairs. -/
theorem rowKey_eq_iff_perm (r1 r2 : Row) : rowKey r1 = rowKey r2 ↔ r1.Perm r2 := by
  constructor
  · intro h
    have p1 := List.perm_insertionSort pairLE r1
    have p2 := List.perm_insertionSort pairLE r2
    exact (p1.symm.trans (h ▸ p2 : rowKey r1 |>.Perm r2))
  · intro h
    have p1 := List.perm_insertionSort pairLE r1
    have p2 := List.perm_insertionSort pairLE r2
    exact List.eq_of_perm_of_sorted (p1.trans (h.trans p2.symm))
      (List.sorted_insertionSort pairLE r1) (List.sorted_insertionSort pairLE r2)

/-! ### The condition evaluator (`evaluate_condition`, main.py:6-63) -/

/-- The six comparison operators of the grammar. -/
inductive CmpOp where
  | eq | ne | lt | gt | le | ge
deriving DecidableEq, Repr

/-- Condition trees as the parser builds them: comparisons, `AND` nodes,
and the `('WHERE', cond)` wrapper produced by `p_where_clause`. -/
inductive Cond where
  | cmp (op : CmpOp) (column : String) (target : PyVal)
  | and (c1 c2 : Cond)
  | whereTag (c : Cond)
deriving DecidableEq, Repr

/-- `float(v)` for a value that is a str, int or float; `none` is
ValueError. -/
def pyFloatOfVal : PyVal → Option PyFloat
  | .int n => some (.fin (n : ℚ))
  | .float f => some f
  | .str s => pyFloatOfString s

/-- The `try:` block of `evaluate_condition`: convert `row_value`, then
`target_value`, with ValueError caught and ignored (keeping whatever was
already assigned). -/
def convertPair (rv tv : PyVal) : PyVal × PyVal :=
  match pyFloatOfVal rv with
  | none => (rv, tv)
  | some rf =>
    match pyFloatOfVal tv with
    | none => (.float rf, tv)
    | some tf => (.float rf, .float tf)

/-- The guard of the `try:` block: the target is an int or float, or a
string passing the digits-with-one-dot test. -/
def targetLooksNumeric : PyVal → Bool
  | .int _ => true
  | .float _ => true
  | .str s => looksNumericStr s

/-- Dispatch on the comparison operator.  Python's `a > b` and `a >= b` on
these types have the same semantics as the reflected `b < a` / `b <= a`. -/
def applyCmp (op : CmpOp) (a b : PyVal) : Except String Bool :=
  match op with
  | .eq => .ok (pyEqB a b)
  | .ne => .ok (!pyEqB a b)
  | .lt => pyLtB a b
  | .gt => pyLtB b a
  | .le => pyLeB a b
  | .ge => pyLeB b a

/-- The recursive body of `evaluate_condition` on a condition tuple. -/
def evalCond (row : Row) : Cond → Except String Bool
  | .whereTag c => evalCond row c
  | .and c1 c2 => do
    let b1 ← evalCond row c1
    if b1 then evalCond row c2 else pure false
  | .cmp op column target =>
    match listDictGet row column with
    | none => .ok false
    | some rv =>
      let pair := if targetLooksNumeric target then convertPair rv target else (rv, target)
      applyCmp op pair.1 pair.2

/-- `evaluate_condition(row, condition)`: `None` means no filter. -/
def evaluateCondition (row : Row) (condition : Option Cond) : Except String Bool :=
  match condition with
  | none => .ok true
  | some c => evalCond row c

/-! ### `select_rows` (main.py:65-116) -/

/-- The in-memory table store (`tables` in parser.py). -/
abbrev TableStore := List (String × List Row)

/-- A select list: `*` or explicit column names. -/
inductive SelectList where
  | star
  | cols (cs : List String)
deriving DecidableEq, Repr

/-- The filter-and-deduplicate loop of `select_rows`: keep rows satisfying
the condition whose `rowKey` was not seen before; a condition-evaluation
exception aborts the whole loop. -/
def filterRows (wc : Option Cond) (seen : List Row) : List Row → Except String (List Row)
  | [] => .ok []
  | r :: rs =>
    match evaluateCondition r wc with
    | .error e => .error e
    | .ok keep =>
      if keep then
        if rowKey r ∈ seen then filterRows wc seen rs
        else
          match filterRows wc (rowKey r :: seen) rs with
          | .error e => .error e
          | .ok rest => .ok (r :: rest)
      else filterRows wc seen rs

/-- Result of `int(limit)` plus the negativity check, distinguishing
exceptions caught by `except (ValueError, TypeError)` from the
OverflowError that `int(float("inf"))` raises, which escapes. -/
inductive LimitRes where
  | val (n : ℤ)
  | badCaught
  | badUncaught
deriving DecidableEq, Repr

/-- `int(limit)` for the scalar limit values. -/
def limitToInt : PyVal → LimitRes
  | .int n => .val n
  | .float (.fin q) => .val (qTrunc q)
  | .float .nan => .badCaught
  | .float .inf => .badUncaught
  | .float .ninf => .badUncaught
  | .str s =>
    match pyIntOfString s with
    | some n => .val n
    | none => .badCaught

/-- `{col: row[col] for col in select_list if col in row}`. -/
def projectRow (cols : List String) (row : Row) : Row :=
  cols.foldl (fun acc c =>
    match listDictGet row c with
    | some v => listDictSet acc c v
    | none => acc) []

/-- Projection to the select list (`*` keeps rows as they are). -/
def applyProjection (sl : SelectList) (rows : List Row) : List Row :=
  match sl with
  | .star => rows
  | .cols cs => rows.map (projectRow cs)

/-- `select_rows`: `.ok none` is Python's `return None` (missing table),
`.ok (some rows)` a normal result, `.error` an exception escaping to the
caller (`execute_statement` catches it). -/
def selectRows (tables : TableStore) (tableName : String) (sl : SelectList)
    (whereClause : Option Cond) (limit : Option PyVal) :
    Except String (Option (List Row)) :=
  match listDictGet tables tableName with
  | none => .ok none
  | some table =>
    if table.isEmpty then .ok (some []) else
    match filterRows whereClause [] table with
    | .error e => .error e
    | .ok filtered =>
      match limit with
      | none => .ok (some (applyProjection sl filtered))
      | some lv =>
        match limitToInt lv with
        | .val n =>
          if n < 0 then .ok (some [])
          else .ok (some (applyProjection sl (filtered.take n.toNat)))
        | .badCaught => .ok (some [])
        | .badUncaught => .error "OverflowError"

/-! ### `join_tables` (main.py:247-291) -/

/-- Build `table2_dict`: key the second table by the join column's value,
later rows overwriting earlier ones; rows without the column are skipped. -/
def buildLookup (table2 : List Row) (joinColumn : String) : List (PyVal × Row) :=
  table2.foldl (fun acc row =>
    match listDictGet row joinColumn with
    | some key => listDictSet acc key row
    | none => acc) []

/-- The merge loop of `join_tables` over the first table. -/
def joinGo (lookup : List (PyVal × Row)) (joinColumn : String) (seen : List Row) :
    List Row → List Row
  | [] => []
  | r1 :: rs =>
    match listDictGet r1 joinColumn with
    | none => joinGo lookup joinColumn seen rs
    | some key =>
      match listDictGet lookup key with
      | none => joinGo lookup joinColumn seen rs
      | some r2 =>
        let merged := listDictUpdate r1 r2
        if rowKey merged ∈ seen then joinGo lookup joinColumn seen rs
        else merged :: joinGo lookup joinColumn (rowKey merged :: seen) rs

/-- `join_tables`: `none` is Python's `return None` (a table missing). -/
def joinTables (tables : TableStore) (t1Name t2Name : String) (joinColumn : String) :
    Option (List Row) :=
  match listDictGet tables t1Name, listDictGet tables t2Name with
  | some table1, some table2 =>
    if table1.isEmpty || table2.isEmpty then some []
    else some (joinGo (buildLookup table2 joinColumn) joinColumn [] table1)
  | _, _ => none

/-! ### CSV import (`parse_csv_line`, `import_csv`; main.py:118-215) -/

/-- Quoting state of the `parse_csv_line` scanner: outside a quoted
region, inside one, or just after a `"` seen inside one (Python peeks at
the following character there to tell an escaped `""` from a closing
quote; `afterQuote` makes that peek a plain state so the scan consumes one
character at a time). -/
inductive QuoteState where
  | outside | inside | afterQuote
deriving DecidableEq, Repr

/-- `parse_csv_line`: split on commas outside double quotes; `""` inside a
quoted region is an escaped quote; fields are stripped; an unclosed quote
raises ValueError. -/
def parseCSVLineGo (values : List String) (current : List Char) :
    QuoteState → List Char → Except String (List String)
  | .afterQuote, [] => .ok (values ++ [pyStrip (String.mk current)])
  | .afterQuote, c :: rest =>
    if c = '"' then parseCSVLineGo values (current ++ ['"']) .inside rest
    else if c = ',' then
      parseCSVLineGo (values ++ [pyStrip (String.mk current)]) [] .outside rest
    else parseCSVLineGo values (current ++ [c]) .outside rest
  | .inside, [] => .error "unclosed quotes"
  | .inside, c :: rest =>
    if c = '"' then parseCSVLineGo values current .afterQuote rest
    else parseCSVLineGo values (current ++ [c]) .inside rest
  | .outside, [] => .ok (values ++ [pyStrip (String.mk current)])
  | .outside, c :: rest =>
    if c = '"' then parseCSVLineGo values current .inside rest
    else if c = ',' then
      parseCSVLineGo (values ++ [pyStrip (String.mk current)]) [] .outside rest
    else parseCSVLineGo values (current ++ [c]) .outside rest

/-- `parse_csv_line` on a whole line. -/
def parseCSVLine (line : String) : Except String (List String) :=
  parseCSVLineGo [] [] .outside line.data

/-- `{col: value for col, value in zip(header, values)}`: every field is
stored as the raw (quote-processed, stripped) string. -/
def rowOfZip (header : List String) (values : List String) : Row :=
  (header.zip values).foldl (fun acc p => listDictSet acc p.1 (.str p.2)) []

/-- The data-row loop of `import_csv`: rows with a quoting error or a field
count different from the header are warned about and skipped. -/
def importRows (header : List String) : List String → List Row
  | [] => []
  | line :: rest =>
    match parseCSVLine line with
    | .error _ => importRows header rest
    | .ok values =>
      if values.length ≠ header.length then importRows header rest
      else rowOfZip header values :: importRows header rest

/-- `import_csv`, applied to the already-read physical lines of the file
(file I/O is outside the model): strip lines, drop blank and `#` lines,
parse and validate the header, then import the data rows.  `none` models
every error path that prints and returns None. -/
def importCSV (fileLines : List String) : Option (List Row) :=
  let lines := (fileLines.map pyStrip).filter
    (fun l => !(l.data.isEmpty || l.data.headD ' ' = '#'))
  match lines with
  | [] => none
  | headerLine :: dataLines =>
    match parseCSVLine headerLine with
    | .error _ => none
    | .ok header =>
      if header.isEmpty then none
      else if header.any (fun col => (pyStrip col).data.isEmpty || col.data.contains ',') then none
      else some (importRows header dataLines)

/-! ### The lexer (lexer.py)

PLY builds one master regular expression whose alternatives are, in order:
the token rules defined by functions, in their order of definition in
lexer.py (the 18 keyword rules, then `t_ID`, `t_NUMBER`, `t_STRING`,
`t_COMMENT`, `t_MULTILINE_COMMENT`, `t_newline`), followed by the rules
defined by strings, sorted by decreasing pattern length (`t_AND` first,
then the two-character operators, then the one-character ones).  At each
input position the first alternative that matches wins — Python regex
alternation does not prefer the longest match — so a keyword rule such as
`r'IMPORT'` matches the *prefix* of a longer word like `IMPORTANT`, and the
word `AND` is consumed by `t_ID` before the string rule `t_AND` is ever
tried.  Characters in `t_ignore` (space, tab) are skipped before matching;
an unmatched character is reported by `t_error` and skipped one at a
time. -/

/-- The token kinds lexer.py can emit.  `kwAND` is declared (`t_AND`) but,
being a string rule, is tried after `t_ID` and can never actually match;
the grammar's UPDATE, SET and AVG are not tokens at all. -/
inductive Token where
  | kwIMPORT | kwEXPORT | kwTABLE | kwFROM | kwAS | kwDISCARD | kwRENAME
  | kwPRINT | kwSELECT | kwWHERE | kwCREATE | kwJOIN | kwUSING
  | kwPROCEDURE | kwDO | kwEND | kwCALL | kwLIMIT | kwAND
  | id (s : String) | num (q : ℚ) | strLit (s : String)
  | eqT | neT | ltT | gtT | leT | geT
  | comma | semi | lparen | rparen | star
deriving DecidableEq, Repr

/-- The keyword function rules, in their order of definition in lexer.py. -/
def keywordRules : List (List Char × Token) :=
  [("IMPORT".data, .kwIMPORT), ("EXPORT".data, .kwEXPORT), ("TABLE".data, .kwTABLE),
   ("FROM".data, .kwFROM), ("AS".data, .kwAS), ("DISCARD".data, .kwDISCARD),
   ("RENAME".data, .kwRENAME), ("PRINT".data, .kwPRINT), ("SELECT".data, .kwSELECT),
   ("WHERE".data, .kwWHERE), ("CREATE".data, .kwCREATE), ("JOIN".data, .kwJOIN),
   ("USING".data, .kwUSING), ("PROCEDURE".data, .kwPROCEDURE), ("DO".data, .kwDO),
   ("END".data, .kwEND), ("CALL".data, .kwCALL), ("LIMIT".data, .kwLIMIT)]

/-- Try the keyword rules in order; each matches its literal as a prefix of
the input (regex `r'IMPORT'` etc. have no word-boundary anchor). -/
def findKw : List (List Char × Token) → List Char → Option (Token × List Char)
  | [], _ => none
  | (pat, t) :: rs, cs =>
    if pat.isPrefixOf cs then some (t, cs.drop pat.length) else findKw rs cs

/-- `[a-zA-Z_]`. -/
def idStart (c : Char) : Bool := c.isAlpha || c = '_'

/-- `[a-zA-Z0-9_]`. -/
def idChar (c : Char) : Bool := c.isAlphanum || c = '_'

/-- Natural number from a list of ASCII digits. -/
def natOfDigits (ds : List Char) : ℕ := ds.foldl (fun acc c => 10 * acc + digitVal c) 0

/-- `t_NUMBER`, regex `-?\d*\.?\d+` matched greedily at the current
position; the value is `float(text)`, kept exact. -/
def lexNumber (cs : List Char) : Option (ℚ × List Char) :=
  let sgn : Bool × List Char := match cs with | '-' :: r => (true, r) | r => (false, r)
  let d1 := sgn.2.takeWhile Char.isDigit
  let r1 := sgn.2.dropWhile Char.isDigit
  let fin : ℚ → ℚ := fun q => if sgn.1 then -q else q
  match r1 with
  | '.' :: r2 =>
    let d2 := r2.takeWhile Char.isDigit
    if d2.isEmpty then
      if d1.isEmpty then none else some (fin (natOfDigits d1 : ℚ), r1)
    else
      some (fin ((natOfDigits d1 : ℚ) + (natOfDigits d2 : ℚ) / 10 ^ d2.length),
        r2.dropWhile Char.isDigit)
  | _ => if d1.isEmpty then none else some (fin (natOfDigits d1 : ℚ), r1)

/-- `t_STRING`, regex `\"[^\"]*\"`: everything up to the next quote (a
newline is allowed inside); the surrounding quotes are stripped. -/
def lexString (cs : List Char) : Option (String × List Char) :=
  match cs with
  | '"' :: r =>
    let inner := r.takeWhile (fun c => c ≠ '"')
    match r.drop inner.length with
    | '"' :: rest => some (String.mk inner, rest)
    | _ => none
  | _ => none

/-- Find the nearest `-}` on the current line (regex `\{-.*?-\}`; `.` does
not match a newline); returns the characters after it. -/
def findClose : List Char → Option (List Char)
  | '-' :: '}' :: r => some r
  | '\n' :: _ => none
  | _ :: r => findClose r
  | [] => none

/-- The string rules, sorted by decreasing pattern length (`t_AND` first). -/
def lexOperators (cs : List Char) : Option (Token × List Char) :=
  if "AND".data.isPrefixOf cs then some (.kwAND, cs.drop 3)
  else
    match cs with
    | '<' :: '>' :: r => some (.neT, r)
    | '<' :: '=' :: r => some (.leT, r)
    | '>' :: '=' :: r => some (.geT, r)
    | '(' :: r => some (.lparen, r)
    | ')' :: r => some (.rparen, r)
    | '*' :: r => some (.star, r)
    | '=' :: r => some (.eqT, r)
    | '<' :: r => some (.ltT, r)
    | '>' :: r => some (.gtT, r)
    | ',' :: r => some (.comma, r)
    | ';' :: r => some (.semi, r)
    | _ => none

/-- One lexing step at the current position: skip `t_ignore` characters,
then try the rules in master-regex order; on no match, `t_error` skips one
character.  Always consumes at least one character of a nonempty input. -/
def lexStep : List Char → Option Token × List Char
  | [] => (none, [])
  | c :: rest =>
    let cs := c :: rest
    if c = ' ' || c = '\t' then (none, rest)
    else
      match findKw keywordRules cs with
      | some (t, r) => (some t, r)
      | none =>
        if idStart c then
          let run := cs.takeWhile idChar
          (some (.id (String.mk run)), cs.drop run.length)
        else
          match lexNumber cs with
          | some (q, r) => (some (.num q), r)
          | none =>
            match lexString cs with
            | some (s, r) => (some (.strLit s), r)
            | none =>
              if c = '-' && rest.headD ' ' = '-' then
                (none, cs.dropWhile (fun ch => ch ≠ '\n'))
              else if c = '{' then
                match rest with
                | '-' :: r2 =>
                  match findClose r2 with
                  | some r3 => (none, r3)
                  | none => (none, rest)
                | _ => (none, rest)
              else if c = '\n' then (none, cs.dropWhile (fun ch => ch = '\n'))
              else
                match lexOperators cs with
                | some (t, r) => (some t, r)
                | none => (none, rest)

/-- The lexing loop; the fuel is an upper bound on the number of steps
(every step consumes at least one character). -/
def tokenizeGo : ℕ → List Char → List Token
  | 0, _ => []
  | _, [] => []
  | fuel + 1, cs =>
    match lexStep cs with
    | (some t, rest) => t :: tokenizeGo fuel rest
    | (none, rest) => tokenizeGo fuel rest

/-- Tokenize a whole source text. -/
def tokenize (s : String) : List Token := tokenizeGo s.length s.data

/-! ### The parser (parser.py)

parser.py defines its grammar through `p_*` functions and builds the
parser at import time: `parser = yacc.yacc()` (parser.py:189).  Before
generating any tables, PLY validates the grammar: every symbol used on a
right-hand side must be a declared token or the head of some production;
each violation is logged as an error and `yacc.yacc()` then raises
`YaccError` with the message `Unable to build parser`.  This grammar uses
AVG (in the export and print rules) and UPDATE and SET (in the update
rule), none of which lexer.py declares in its `tokens` tuple — so parser
construction fails, the exception escapes the module import, and main.py
(whose line 4 is `from parser import parser, tables, procedures`) can
never run: no submitted program is ever lexed, parsed or executed.

The statement-node type below transcribes what the semantic actions
would build; with the parser never constructed, the only reachable
consumer of `Stmt` values is `execute_statement` taken as a function. -/

/-- The statement nodes produced by parser.py's semantic actions.
`printTAs` is the `('PRINT', name, file)` triple, `printString` the
`('PRINT_STRING', s)` tuple and `updateDatahora` the
`('UPDATE_DATAHORA', ...)` tuple; `execute_statement` has no branch for
any of these three, so executing them changes nothing.  `createFromSelect`
carries the fields of the stored select tuple. -/
inductive Stmt where
  | importT (tableName fileName : String)
  | exportT (tableName fileName : String)
  | discard (tableName : String)
  | rename (oldName newName : String)
  | printT (tableName : String)
  | printTAs (tableName fileName : String)
  | printString (s : String)
  | select (sl : SelectList) (tableName : String) (wc : Option Cond) (lim : Option PyVal)
  | createFromSelect (newTable : String) (sl : SelectList) (tableName : String)
      (wc : Option Cond) (lim : Option PyVal)
  | createFromJoin (newTable t1 t2 joinColumn : String)
  | procedure (pname : String) (body : List Stmt)
  | call (pname : String)
  | updateDatahora (tableName targetCol newVal gateCol gateVal : String)
deriving Repr

/-- The procedure store (`procedures` in parser.py). -/
abbrev ProcStore := List (String × List Stmt)

/-- The token names lexer.py declares (its `tokens` tuple,
lexer.py:4-21). -/
def declaredTokens : List String :=
  ["IMPORT", "EXPORT", "TABLE", "FROM", "AS", "DISCARD", "RENAME",
   "PRINT", "SELECT", "WHERE", "CREATE", "JOIN", "USING", "PROCEDURE",
   "DO", "END", "CALL", "LIMIT",
   "EQUALS", "NOTEQUALS", "LT", "GT", "LTE", "GTE", "AND",
   "ID", "NUMBER", "STRING",
   "COMMA", "SEMICOLON", "LPAREN", "RPAREN", "STAR",
   "COMMENT", "MULTILINE_COMMENT"]

/-- The grammar of parser.py: one (head, right-hand side) pair per
production alternative, transcribed from the `p_*` docstrings in file
order. -/
def grammarProductions : List (String × List String) :=
  [("program", ["statement_list"]),
   ("statement_list", ["statement"]),
   ("statement_list", ["statement_list", "statement"]),
   ("statement", ["import_statement"]),
   ("statement", ["export_statement"]),
   ("statement", ["discard_statement"]),
   ("statement", ["rename_statement"]),
   ("statement", ["print_statement"]),
   ("statement", ["select_statement"]),
   ("statement", ["create_table_statement"]),
   ("statement", ["procedure_statement"]),
   ("statement", ["call_statement"]),
   ("statement", ["update_statement"]),
   ("import_statement", ["IMPORT", "TABLE", "ID", "FROM", "STRING", "SEMICOLON"]),
   ("export_statement", ["EXPORT", "TABLE", "ID", "AS", "STRING", "SEMICOLON"]),
   ("export_statement",
     ["EXPORT", "AVG", "LPAREN", "ID", "RPAREN", "FROM", "ID", "AS", "STRING",
      "SEMICOLON"]),
   ("discard_statement", ["DISCARD", "TABLE", "ID", "SEMICOLON"]),
   ("rename_statement", ["RENAME", "TABLE", "ID", "ID", "SEMICOLON"]),
   ("print_statement", ["PRINT", "TABLE", "ID", "SEMICOLON"]),
   ("print_statement", ["PRINT", "TABLE", "ID", "AS", "STRING", "SEMICOLON"]),
   ("print_statement",
     ["PRINT", "AVG", "LPAREN", "ID", "RPAREN", "FROM", "ID", "SEMICOLON"]),
   ("print_statement", ["PRINT", "STRING", "SEMICOLON"]),
   ("select_statement",
     ["SELECT", "select_list", "FROM", "ID", "where_clause", "limit_clause",
      "SEMICOLON"]),
   ("select_statement",
     ["SELECT", "select_list", "FROM", "ID", "where_clause", "SEMICOLON"]),
   ("select_statement",
     ["SELECT", "select_list", "FROM", "ID", "limit_clause", "SEMICOLON"]),
   ("select_statement", ["SELECT", "select_list", "FROM", "ID", "SEMICOLON"]),
   ("select_list", ["STAR"]),
   ("select_list", ["column_list"]),
   ("column_list", ["ID"]),
   ("column_list", ["column_list", "COMMA", "ID"]),
   ("where_clause", ["WHERE", "condition"]),
   ("where_clause", ["empty"]),
   ("condition", ["ID", "comparison_operator", "value"]),
   ("condition", ["condition", "AND", "condition"]),
   ("comparison_operator", ["EQUALS"]),
   ("comparison_operator", ["NOTEQUALS"]),
   ("comparison_operator", ["LT"]),
   ("comparison_operator", ["GT"]),
   ("comparison_operator", ["LTE"]),
   ("comparison_operator", ["GTE"]),
   ("value", ["NUMBER"]),
   ("value", ["STRING"]),
   ("value", ["ID"]),
   ("limit_clause", ["LIMIT", "NUMBER"]),
   ("limit_clause", ["empty"]),
   ("create_table_statement", ["CREATE", "TABLE", "ID", "select_statement"]),
   ("create_table_statement",
     ["CREATE", "TABLE", "ID", "FROM", "ID", "JOIN", "ID", "USING",
      "LPAREN", "ID", "RPAREN", "SEMICOLON"]),
   ("procedure_statement",
     ["PROCEDURE", "ID", "DO", "statement_list", "END", "SEMICOLON"]),
   ("call_statement", ["CALL", "ID", "SEMICOLON"]),
   ("update_statement",
     ["UPDATE", "ID", "SET", "ID", "EQUALS", "STRING", "WHERE", "ID",
      "EQUALS", "STRING", "SEMICOLON"]),
   ("empty", [])]

/-- PLY's grammar check (`Grammar.undefined_symbols`): the right-hand-side
symbols that are neither declared tokens nor the head of any production,
in order of occurrence. -/
def yaccUndefinedSymbols : List String :=
  ((grammarProductions.map Prod.snd).flatten).filter
    (fun s => !(declaredTokens.contains s ||
      (grammarProductions.map Prod.fst).contains s))

/-- `yacc.yacc()` at parser.py:189: every undefined symbol is logged as an
error, and with any error present table construction is abandoned and
`YaccError` is raised with the message `Unable to build parser`. -/
def yaccBuild : Except String Unit :=
  if yaccUndefinedSymbols.isEmpty then .ok () else .error "Unable to build parser"

/-- The semantic action of `p_procedure_statement` (parser.py:160-164) as
written: on reduction it assigns `procedures[p[2]] = p[4]` and yields the
`('PROCEDURE', name, body)` node.  It is dead code in the committed
source: the parser that would invoke it is never built (see
`yaccBuild`). -/
def pProcedureStatementAction (procs : ProcStore) (pname : String) (body : List Stmt) :
    ProcStore × Stmt :=
  (listDictSet procs pname body, .procedure pname body)

/-! ### The executor (`execute_statement` and `main`, main.py:293-409) -/

/-- The two process-wide stores. -/
structure DBState where
  tables : TableStore
  procs : ProcStore
deriving Repr

/-- The file system visible to IMPORT, as a map from file name to the
file's physical lines (file I/O itself is outside the model). -/
abbrev FileSys := List (String × List String)

/-- `execute_statement`: dispatch on the statement tag.  Printing is not
modelled; any exception inside a statement is caught by the statement's
`try/except`, which prints and moves on, so execution is total on the
store.  The fuel models the host's call-stack limit for CALL recursion
(`RecursionError` is likewise caught).  A tag without a branch
(`PRINT_STRING`, `UPDATE_DATAHORA`) falls through every `elif` and does
nothing. -/
def executeStatement (fs : FileSys) : ℕ → Stmt → DBState → DBState
  | _, .importT tname file, st =>
    (match listDictGet fs file with
    | none => st
    | some lines =>
      match importCSV lines with
      | none => st
      | some data => { st with tables := listDictSet st.tables tname data })
  | _, .exportT _ _, st => st
  | _, .discard tname, st =>
    if listDictMem st.tables tname then { st with tables := listDictPop st.tables tname }
    else st
  | _, .rename oldName newName, st =>
    (match listDictGet st.tables oldName with
    | some t =>
      { st with tables := listDictSet (listDictPop st.tables oldName) newName t }
    | none => st)
  | _, .printT _, st => st
  | _, .printTAs _ _, st => st
  | _, .printString _, st => st
  | _, .select _ _ _ _, st => st
  | _, .createFromSelect newT sl tname wc lim, st =>
    (match selectRows st.tables tname sl wc lim with
    | .ok (some rows) => { st with tables := listDictSet st.tables newT rows }
    | _ => st)
  | _, .createFromJoin newT t1 t2 jc, st =>
    (match joinTables st.tables t1 t2 jc with
    | some rows => { st with tables := listDictSet st.tables newT rows }
    | none => st)
  | _, .procedure pname body, st => { st with procs := listDictSet st.procs pname body }
  | fuel, .call pname, st =>
    (match fuel, listDictGet st.procs pname with
    | fuel2 + 1, some body => body.foldl (fun s stmt => executeStatement fs fuel2 stmt s) st
    | _, _ => st)
  | _, .updateDatahora _ _ _ _ _, st => st

/-- Submitting a source program to the interpreter (`main`,
main.py:378-409).  Before `main` can run, main.py's imports must succeed;
line 4, `from parser import parser, tables, procedures`, executes
parser.py and with it `yacc.yacc()`, whose grammar validation fails (see
`yaccBuild`).  The YaccError escapes, the process dies, and the submitted
text is never read, lexed, parsed or executed.  The `.ok` branch is
provably unreachable (`yaccUndefinedSymbols` is nonempty by computation)
and returns the untouched state, reflecting that no statement could have
run. -/
def runProgram (_fs : FileSys) (_input : String) (st : DBState) :
    Except String DBState :=
  match yaccBuild with
  | .error e => .error e
  | .ok _ => .ok st

/-! ### Specification-side definitions used to state the claims -/

/-- The last element of a list satisfying `p` (the row a Python dict keyed
by the join column retains when several rows share the key). -/
def lastWith (p : Row → Bool) : List Row → Option Row
  | [] => none
  | r :: rs =>
    match lastWith p rs with
    | some r2 => some r2
    | none => if p r then some r else none

/-- The pure content of the filter-and-deduplicate loop of `select_rows`
when no exception can occur: keep the rows whose `rowKey` is new. -/
def codeDedup (seen : List Row) : List Row → List Row
  | [] => []
  | r :: rs =>
    if rowKey r ∈ seen then codeDedup seen rs
    else r :: codeDedup (rowKey r :: seen) rs

/-- Modelled from the spec's wording: duplicates removed keeping the first
occurrence, two rows being duplicates iff their full column-value sets are
identical irrespective of ordering — i.e. iff one row is a permutation of
the other.  The fuel (the list's length at the top call) only drives the
recursion; see `specDedup_cons`. -/
def specDedupGo : ℕ → List Row → List Row
  | _, [] => []
  | 0, r :: _ => [r]
  | fuel + 1, r :: rest =>
    r :: specDedupGo fuel (rest.filter (fun r2 => !decide (r.Perm r2)))

/-- See `specDedupGo`. -/
def specDedup (l : List Row) : List Row := specDedupGo l.length l

/-! ## Supporting lemmas -/

theorem listDictGet_map_self {κ ν : Type} [DecidableEq κ] (d : List (κ × ν)) (k : κ) (v : ν)
    (hany : d.any (fun p => decide (p.1 = k)) = true) :
    listDictGet (d.map (fun p => if p.1 = k then (k, v) else p)) k = some v := by
  induction d with
  | nil => simp at hany
  | cons p d ih =>
    by_cases hpk : p.1 = k
    · simp [listDictGet, hpk]
    · simp only [List.any_cons, Bool.or_eq_true, decide_eq_true_eq] at hany
      rcases hany with h | h
      · exact absurd h hpk
      · simpa [listDictGet, hpk] using ih h

theorem listDictGet_map_other {κ ν : Type} [DecidableEq κ] (d : List (κ × ν)) (k : κ) (v : ν)
    (k2 : κ) (h : k2 ≠ k) :
    listDictGet (d.map (fun p => if p.1 = k then (k, v) else p)) k2 = listDictGet d k2 := by
  induction d with
  | nil => rfl
  | cons p d ih =>
    by_cases hpk : p.1 = k
    · have hk2 : ¬ (k = k2) := fun hh => h hh.symm
      have hp2 : ¬ (p.1 = k2) := by rw [hpk]; exact hk2
      simpa [listDictGet, hpk, hk2, hp2] using ih
    · by_cases hpk2 : p.1 = k2
      · simp [listDictGet, hpk, hpk2, h, Ne.symm h]
      · simpa [listDictGet, hpk, hpk2] using ih

theorem listDictGet_append_self {κ ν : Type} [DecidableEq κ] (d : List (κ × ν)) (k : κ) (v : ν)
    (hnone : d.any (fun p => decide (p.1 = k)) = false) :
    listDictGet (d ++ [(k, v)]) k = some v := by
  induction d with
  | nil => simp [listDictGet]
  | cons p d ih =>
    simp only [List.any_cons, Bool.or_eq_false_iff] at hnone
    have hpk : ¬ (p.1 = k) := by simpa using hnone.1
    simpa [listDictGet, hpk] using ih hnone.2

theorem listDictGet_append_other {κ ν : Type} [DecidableEq κ] (d : List (κ × ν)) (k : κ) (v : ν)
    (k2 : κ) (h : k2 ≠ k) :
    listDictGet (d ++ [(k, v)]) k2 = listDictGet d k2 := by
  induction d with
  | nil => simp [listDictGet, Ne.symm h]
  | cons p d ih =>
    by_cases hpk2 : p.1 = k2
    · simp [listDictGet, hpk2]
    · simpa [listDictGet, hpk2] using ih

/-- `d[k] = v` then `d[k]` reads `v`. -/
theorem listDictGet_set_self {κ ν : Type} [DecidableEq κ] (d : List (κ × ν)) (k : κ) (v : ν) :
    listDictGet (listDictSet d k v) k = some v := by
  by_cases hany : d.any (fun p => decide (p.1 = k)) = true
  · rw [listDictSet, if_pos hany]
    exact listDictGet_map_self d k v hany
  · rw [listDictSet, if_neg hany]
    exact listDictGet_append_self d k v (Bool.eq_false_iff.mpr hany)

/-- `d[k] = v` leaves other keys unchanged. -/
theorem listDictGet_set_other {κ ν : Type} [DecidableEq κ] (d : List (κ × ν)) (k : κ) (v : ν)
    (k2 : κ) (h : k2 ≠ k) :
    listDictGet (listDictSet d k v) k2 = listDictGet d k2 := by
  by_cases hany : d.any (fun p => decide (p.1 = k)) = true
  · rw [listDictSet, if_pos hany]
    exact listDictGet_map_other d k v k2 h
  · rw [listDictSet, if_neg hany]
    exact listDictGet_append_other d k v k2 h

/-- The dict built by `join_tables` over the second table maps each join
value to the *last* row of the table carrying it. -/
theorem buildLookup_lastWith (joinColumn : String) (t2 : List Row) (v : PyVal) :
    listDictGet (buildLookup t2 joinColumn) v =
      lastWith (fun r => decide (listDictGet r joinColumn = some v)) t2 := by
  suffices h : ∀ (t : List Row) (acc : List (PyVal × Row)),
      listDictGet (t.foldl (fun acc row =>
        match listDictGet row joinColumn with
        | some key => listDictSet acc key row
        | none => acc) acc) v =
      (match lastWith (fun r => decide (listDictGet r joinColumn = some v)) t with
       | some r => some r
       | none => listDictGet acc v) by
    have hh := h t2 []
    unfold buildLookup
    rw [hh]
    cases lastWith (fun r => decide (listDictGet r joinColumn = some v)) t2 <;> rfl
  intro t
  induction t with
  | nil => intro acc; rfl
  | cons r rs ih =>
    intro acc
    simp only [List.foldl_cons]
    rw [ih]
    have hstep : ∀ o : Option PyVal,
        listDictGet (match o with
          | some key => listDictSet acc key r
          | none => acc) v =
        if o = some v then some r else listDictGet acc v := by
      intro o
      rcases o with _ | key
      · simp
      · by_cases hkv : key = v
        · subst hkv
          simp [listDictGet_set_self]
        · simp [hkv, listDictGet_set_other _ _ _ _ (Ne.symm hkv)]
    cases hlast : lastWith (fun r => decide (listDictGet r joinColumn = some v)) rs with
    | some r2 => simp [lastWith, hlast]
    | none =>
      simp only [lastWith, hlast]
      rw [hstep]
      by_cases hpv : listDictGet r joinColumn = some v
      · simp [hpv]
      · simp [hpv]

/-- Each row of the first table yields at most one merged row. -/
theorem joinGo_length (lookup : List (PyVal × Row)) (joinColumn : String) :
    ∀ (l : List Row) (seen : List Row),
      (joinGo lookup joinColumn seen l).length ≤ l.length := by
  intro l
  induction l with
  | nil => intro seen; simp [joinGo]
  | cons r rs ih =>
    intro seen
    simp only [joinGo, List.length_cons]
    split
    · exact (ih seen).trans (Nat.le_succ _)
    · split
      · exact (ih seen).trans (Nat.le_succ _)
      · split
        · exact (ih seen).trans (Nat.le_succ _)
        · simpa using Nat.succ_le_succ (ih _)

theorem specDedupGo_congr :
    ∀ (f1 f2 : ℕ) (l : List Row), l.length ≤ f1 → l.length ≤ f2 →
      specDedupGo f1 l = specDedupGo f2 l := by
  intro f1
  induction f1 with
  | zero =>
    intro f2 l h1 _
    have : l = [] := List.eq_nil_of_length_eq_zero (Nat.le_zero.mp h1)
    subst this
    cases f2 <;> rfl
  | succ f ih =>
    intro f2 l h1 h2
    cases l with
    | nil => cases f2 <;> rfl
    | cons r rest =>
      cases f2 with
      | zero => simp at h2
      | succ f2a =>
        simp only [specDedupGo]
        congr 1
        exact ih f2a _
          ((List.length_filter_le _ _).trans (by simpa using Nat.lt_succ_iff.mp h1))
          ((List.length_filter_le _ _).trans (by simpa using Nat.lt_succ_iff.mp h2))

/-- The defining unfolding of `specDedup`. -/
theorem specDedup_cons (r : Row) (rest : List Row) :
    specDedup (r :: rest) = r :: specDedup (rest.filter (fun r2 => !decide (r.Perm r2))) := by
  unfold specDedup
  simp only [List.length_cons, specDedupGo]
  congr 1
  exact specDedupGo_congr _ _ _ (List.length_filter_le _ _) le_rfl

/-- The seen-set deduplication of `select_rows` computes exactly the
spec's keep-first-occurrence deduplication up to the rows already seen. -/
theorem codeDedup_eq_specDedup :
    ∀ (l : List Row) (seen : List Row),
      codeDedup seen l = specDedup (l.filter (fun r => !decide (rowKey r ∈ seen))) := by
  intro l
  induction l with
  | nil => intro seen; rfl
  | cons r rs ih =>
    intro seen
    by_cases hmem : rowKey r ∈ seen
    · simp only [codeDedup, if_pos hmem]
      rw [List.filter_cons_of_neg (by simpa using hmem)]
      exact ih seen
    · simp only [codeDedup, if_neg hmem]
      rw [List.filter_cons_of_pos (by simpa using hmem), specDedup_cons]
      rw [ih (rowKey r :: seen), List.filter_filter]
      congr 1
      congr 1
      apply List.filter_congr
      intro r2 _
      have hperm : (rowKey r2 = rowKey r) ↔ r.Perm r2 :=
        (rowKey_eq_iff_perm r2 r).trans List.perm_comm
      simp only [List.mem_cons, Bool.decide_or, Bool.not_or]
      simp [hperm]
      

/-- With no WHERE clause the filter loop cannot raise and is exactly the
seen-set deduplication. -/
theorem filterRows_none_eq (seen : List Row) :
    ∀ l : List Row, filterRows none seen l = .ok (codeDedup seen l) := by
  intro l
  induction l generalizing seen with
  | nil => rfl
  | cons r rs ih =>
    simp only [filterRows, evaluateCondition, codeDedup]
    by_cases hmem : rowKey r ∈ seen
    · simp [hmem, ih seen]
    · simp [hmem, ih (rowKey r :: seen)]

/-- A successful filter pass returns a subsequence of the table whose rows
all satisfy the condition. -/
theorem filterRows_ok (wc : Option Cond) :
    ∀ (l : List Row) (seen : List Row) (fr : List Row),
      filterRows wc seen l = .ok fr →
      fr.Sublist l ∧ ∀ r ∈ fr, evaluateCondition r wc = .ok true := by
  intro l
  induction l with
  | nil =>
    intro seen fr h
    simp only [filterRows] at h
    cases h
    exact ⟨List.Sublist.refl [], by simp⟩
  | cons r rs ih =>
    intro seen fr h
    simp only [filterRows] at h
    cases hev : evaluateCondition r wc with
    | error e => rw [hev] at h; cases h
    | ok keep =>
      rw [hev] at h
      cases keep with
      | false =>
        simp only [Bool.false_eq_true, if_neg] at h
        obtain ⟨hs, hsat⟩ := ih seen fr h
        exact ⟨hs.cons r, hsat⟩
      | true =>
        simp only [if_true] at h
        by_cases hmem : rowKey r ∈ seen
        · rw [if_pos hmem] at h
          obtain ⟨hs, hsat⟩ := ih seen fr h
          exact ⟨hs.cons r, hsat⟩
        · rw [if_neg hmem] at h
          cases hrec : filterRows wc (rowKey r :: seen) rs with
          | error e => rw [hrec] at h; cases h
          | ok rest =>
            rw [hrec] at h
            cases h
            obtain ⟨hs, hsat⟩ := ih _ rest hrec
            refine ⟨hs.cons₂ r, ?_⟩
            intro x hx
            rcases List.mem_cons.mp hx with hh | hh
            · subst hh; exact hev
            · exact hsat x hh

theorem qTrunc_natCast (n : ℕ) : qTrunc (n : ℚ) = (n : ℤ) := by
  unfold qTrunc
  rw [if_neg (not_lt.mpr (Nat.cast_nonneg n))]
  exact_mod_cast Int.floor_natCast n

theorem qTrunc_intCast (z : ℤ) : qTrunc (z : ℚ) = z := by
  unfold qTrunc
  split
  · rw [← Rat.cast_intCast]
    push_cast
    rw [← Int.cast_neg, Int.floor_intCast]
    omega
  · exact Int.floor_intCast z

theorem listDictSet_str {row : Row} {k s : String}
    (h : ∀ p ∈ row, ∃ t : String, p.2 = PyVal.str t) :
    ∀ p ∈ listDictSet row k (PyVal.str s), ∃ t : String, p.2 = PyVal.str t := by
  intro p hp
  unfold listDictSet at hp
  split at hp
  · obtain ⟨p0, hp0, hmap⟩ := List.mem_map.mp hp
    by_cases hk : p0.1 = k
    · rw [if_pos hk] at hmap
      exact ⟨s, by rw [← hmap]⟩
    · rw [if_neg hk] at hmap
      exact hmap ▸ h p0 hp0
  · rcases List.mem_append.mp hp with hin | hin
    · exact h p hin
    · simp only [List.mem_singleton] at hin
      exact ⟨s, by rw [hin]⟩

theorem rowOfZip_str (header values : List String) :
    ∀ p ∈ rowOfZip header values, ∃ t : String, p.2 = PyVal.str t := by
  unfold rowOfZip
  suffices hgen : ∀ (pairs : List (String × String)) (acc : Row),
      (∀ p ∈ acc, ∃ t : String, p.2 = PyVal.str t) →
      ∀ p ∈ pairs.foldl (fun acc p => listDictSet acc p.1 (.str p.2)) acc,
        ∃ t : String, p.2 = PyVal.str t by
    exact hgen _ [] (by simp)
  intro pairs
  induction pairs with
  | nil => intro acc hacc; simpa using hacc
  | cons q qs ih =>
    intro acc hacc
    simp only [List.foldl_cons]
    exact ih _ (listDictSet_str hacc)

theorem importRows_str (header : List String) :
    ∀ (lines : List String) (row : Row), row ∈ importRows header lines →
      ∀ p ∈ row, ∃ t : String, p.2 = PyVal.str t := by
  intro lines
  induction lines with
  | nil => intro row hr; simp [importRows] at hr
  | cons l ls ih =>
    intro row hr
    simp only [importRows] at hr
    cases hparse : parseCSVLine l with
    | error e => rw [hparse] at hr; exact ih row hr
    | ok values =>
      rw [hparse] at hr
      dsimp only at hr
      by_cases hlen : values.length ≠ header.length
      · rw [if_pos hlen] at hr; exact ih row hr
      · rw [if_neg hlen] at hr
        rcases List.mem_cons.mp hr with hh | hh
        · subst hh; exact rowOfZip_str header values
        · exact ih row hh

/-! ## The claims -/

/-- C1, counterexample: importing the data line `3,4.5` under header `a,b`
stores both fields as the raw strings `"3"` and `"4.5"` — the all-digits
field is not stored as an integer and the decimal field is not stored as a
floating-point value, contradicting the claimed import-time typing. -/
theorem c1_counterexample :
    importCSV ["a,b", "3,4.5"] = some [[("a", PyVal.str "3"), ("b", PyVal.str "4.5")]] ∧
    PyVal.str "3" ≠ PyVal.int 3 ∧
    PyVal.str "4.5" ≠ PyVal.float (.fin (9 / 2)) :=
  ⟨rfl, by decide, by decide⟩

/-- C1, amended: `import_csv` performs no type inference at all — every
field of every kept data row is stored as its raw (quote-processed,
whitespace-trimmed) string. -/
theorem c1_amended_fields_are_strings (fileLines : List String) (rows : List Row)
    (h : importCSV fileLines = some rows) :
    ∀ row ∈ rows, ∀ p ∈ row, ∃ t : String, p.2 = PyVal.str t := by
  unfold importCSV at h
  dsimp only at h
  split at h
  · cases h
  · rename_i headerLine dataLines heq
    split at h
    · cases h
    · rename_i header hparse
      split at h
      · cases h
      · split at h
        · cases h
        · rw [Option.some_inj] at h
          subst h
          intro row hrow
          exact importRows_str header dataLines row hrow

/-- C1, witness for the amended theorem at a concrete import. -/
theorem c1_witness : ∃ t : String, (("a", PyVal.str "3") : String × PyVal).2 = PyVal.str t := by
  have h : importCSV ["a", "3"] = some [[("a", PyVal.str "3")]] := rfl
  exact c1_amended_fields_are_strings ["a", "3"] [[("a", PyVal.str "3")]] h
    [("a", PyVal.str "3")] (by simp) ("a", PyVal.str "3") (by simp)

/-- C2: holds, degenerately.  Every submitted source program — in
particular any containing a syntactically invalid statement — executes
zero statements and causes no table-store or procedure-store mutation:
the interpreter dies while importing parser.py, because `yacc.yacc()`
finds the grammar symbols AVG (twice, in the export and print rules),
UPDATE and SET used without being declared as tokens and raises
`YaccError` before `main` can even read the input.  No parse ever
produces a statement list for any program. -/
theorem c2_zero_execution (fs : FileSys) (input : String) (st : DBState) :
    runProgram fs input st = .error "Unable to build parser" ∧
    yaccUndefinedSymbols = ["AVG", "AVG", "UPDATE", "SET"] :=
  ⟨rfl, rfl⟩

/-- C3: `execute_statement` has no branch for the `UPDATE_DATAHORA` tag
the parser produces for an UPDATE statement, so executing an UPDATE is a
no-op on the whole store — the target column is never set. -/
theorem c3_update_statement_noop (fs : FileSys) (fuel : ℕ)
    (tname col newVal gcol gval : String) (st : DBState) :
    executeStatement fs fuel (.updateDatahora tname col newVal gcol gval) st = st := by
  cases fuel <;> rfl

/-- C5: keyword rules match as prefixes (PLY tries the keyword function
rules before `t_ID`, and regex alternation takes the first match, not the
longest), so `IMPORTANT` lexes as the keyword `IMPORT` followed by the
identifier `ANT`, and `SELECTED` as `SELECT` followed by `ED` — not as
single identifiers. -/
theorem c5_keyword_prefix_split :
    tokenize "IMPORTANT" = [Token.kwIMPORT, Token.id "ANT"] ∧
    tokenize "SELECTED" = [Token.kwSELECT, Token.id "ED"] :=
  ⟨rfl, rfl⟩

/-- C6: the spec's join example — unmatched keys on both sides dropped,
matched rows merged — and a collision example showing the second table's
value winning on a shared field name. -/
theorem c6_join_example :
    joinTables
      [("a", [[("k", PyVal.str "1"), ("x", PyVal.str "p")],
              [("k", PyVal.str "2"), ("x", PyVal.str "q")]]),
       ("b", [[("k", PyVal.str "1"), ("y", PyVal.str "m")],
              [("k", PyVal.str "3"), ("y", PyVal.str "n")]])]
      "a" "b" "k" =
      some [[("k", PyVal.str "1"), ("x", PyVal.str "p"), ("y", PyVal.str "m")]] ∧
    joinTables
      [("a", [[("k", PyVal.str "1"), ("x", PyVal.str "p")]]),
       ("b", [[("k", PyVal.str "1"), ("x", PyVal.str "z"), ("y", PyVal.str "m")]])]
      "a" "b" "k" =
      some [[("k", PyVal.str "1"), ("x", PyVal.str "z"), ("y", PyVal.str "m")]] :=
  ⟨rfl, rfl⟩

/-- C9: the lookup over the second table is keyed by the join value with
later rows overwriting earlier ones — its entry for a value is the *last*
row carrying it; each first-table row yields at most one merged row (no
cross-product); and a concrete duplicate-key join keeps the last row. -/
theorem c9_join_last_write_wins :
    (∀ (t2 : List Row) (joinColumn : String) (v : PyVal),
      listDictGet (buildLookup t2 joinColumn) v =
        lastWith (fun r => decide (listDictGet r joinColumn = some v)) t2) ∧
    (∀ (tables : TableStore) (t1Name t2Name joinColumn : String)
        (t1 res : List Row),
      listDictGet tables t1Name = some t1 →
      joinTables tables t1Name t2Name joinColumn = some res →
      res.length ≤ t1.length) ∧
    joinTables
      [("a", [[("k", PyVal.str "1"), ("x", PyVal.str "p")]]),
       ("b", [[("k", PyVal.str "1"), ("y", PyVal.str "m")],
              [("k", PyVal.str "1"), ("y", PyVal.str "n")]])]
      "a" "b" "k" =
      some [[("k", PyVal.str "1"), ("x", PyVal.str "p"), ("y", PyVal.str "n")]] := by
  refine ⟨fun t2 jc v => buildLookup_lastWith jc t2 v, ?_, rfl⟩
  intro tables t1Name t2Name joinColumn t1 res h1 hj
  unfold joinTables at hj
  rw [h1] at hj
  cases hb : listDictGet tables t2Name with
  | none => rw [hb] at hj; dsimp only at hj; cases hj
  | some t2 =>
    rw [hb] at hj
    dsimp only at hj
    by_cases hempty : (t1.isEmpty || t2.isEmpty) = true
    · rw [if_pos hempty] at hj
      cases hj
      simp
    · rw [if_neg hempty] at hj
      cases hj
      exact joinGo_length _ _ t1 []

/-- C9, witness: the length bound applied to the concrete duplicate-key
join. -/
theorem c9_witness :
    ([[("k", PyVal.str "1"), ("x", PyVal.str "p"), ("y", PyVal.str "n")]] : List Row).length ≤
      ([[("k", PyVal.str "1"), ("x", PyVal.str "p")]] : List Row).length :=
  c9_join_last_write_wins.2.1
    [("a", [[("k", PyVal.str "1"), ("x", PyVal.str "p")]]),
     ("b", [[("k", PyVal.str "1"), ("y", PyVal.str "m")],
            [("k", PyVal.str "1"), ("y", PyVal.str "n")]])]
    "a" "b" "k" _ _ rfl rfl

/-- String-against-string comparison is total for all six operators. -/
theorem applyCmp_str_total (op : CmpOp) (s t : String) :
    ∃ b, applyCmp op (.str s) (.str t) = .ok b := by
  cases op <;> exact ⟨_, rfl⟩

/-- C4, counterexample: in the fallback case (numeric literal, row value
that fails numeric coercion) the ordering operators do not return a
boolean — the comparison raises a TypeError, which escapes to the
statement level. -/
theorem c4_counterexample :
    evaluateCondition [("c", PyVal.str "abc")]
      (some (.cmp .lt "c" (.float (.fin 5)))) = .error "TypeError" := rfl

/-- C4, amended: numeric coercion is attempted exactly when the literal is
numeric or looks numeric (the row value's own shape is never consulted);
on coercion failure both sides keep their stored forms and are compared
directly.  That fallback always returns a boolean for `=` and `<>`, and
for all six operators when the literal is a string; but when the literal
is a number and the row value does not convert, the four ordering
operators raise a TypeError instead of returning a boolean. -/
theorem c4_amended_fallback :
    (∀ (row : Row) (col : String) (lit : PyVal),
      (∃ b, evaluateCondition row (some (.cmp .eq col lit)) = .ok b) ∧
      (∃ b, evaluateCondition row (some (.cmp .ne col lit)) = .ok b)) ∧
    (∀ (row : Row) (col rs s : String) (op : CmpOp),
      listDictGet row col = some (.str rs) → pyFloatOfString rs = none →
      ∃ b, evaluateCondition row (some (.cmp op col (.str s))) = .ok b) ∧
    (∀ (row : Row) (col rs : String) (q : ℚ) (op : CmpOp),
      (op = .lt ∨ op = .gt ∨ op = .le ∨ op = .ge) →
      listDictGet row col = some (.str rs) → pyFloatOfString rs = none →
      evaluateCondition row (some (.cmp op col (.float (.fin q)))) =
        .error "TypeError") := by
  refine ⟨?_, ?_, ?_⟩
  · intro row col lit
    constructor
    · cases hget : listDictGet row col with
      | none => exact ⟨false, by simp [evaluateCondition, evalCond, hget]⟩
      | some rv =>
        refine ⟨pyEqB (if targetLooksNumeric lit then convertPair rv lit else (rv, lit)).1
          (if targetLooksNumeric lit then convertPair rv lit else (rv, lit)).2, ?_⟩
        simp only [evaluateCondition, evalCond, hget]
        rfl
    · cases hget : listDictGet row col with
      | none => exact ⟨false, by simp [evaluateCondition, evalCond, hget]⟩
      | some rv =>
        refine ⟨!pyEqB (if targetLooksNumeric lit then convertPair rv lit else (rv, lit)).1
          (if targetLooksNumeric lit then convertPair rv lit else (rv, lit)).2, ?_⟩
        simp only [evaluateCondition, evalCond, hget]
        rfl
  · intro row col rs s op hget hconv
    obtain ⟨b, hb⟩ := applyCmp_str_total op rs s
    refine ⟨b, ?_⟩
    simp only [evaluateCondition, evalCond, hget]
    have hcp : convertPair (.str rs) (.str s) = (.str rs, .str s) := by
      unfold convertPair
      simp [pyFloatOfVal, hconv]
    by_cases hl : targetLooksNumeric (.str s) = true
    · rw [if_pos hl, hcp]
      exact hb
    · rw [if_neg hl]
      exact hb
  · intro row col rs q op hop hget hconv
    have hcp : convertPair (.str rs) (.float (.fin q)) = (.str rs, .float (.fin q)) := by
      unfold convertPair
      simp [pyFloatOfVal, hconv]
    have hTL : targetLooksNumeric ((.float (.fin q)) : PyVal) = true := rfl
    rcases hop with rfl | rfl | rfl | rfl <;>
      · simp only [evaluateCondition, evalCond, hget]
        rw [if_pos hTL, hcp]
        rfl

/-- C4, witness: the amended theorem's TypeError case at a concrete row
and literal. -/
theorem c4_witness :
    evaluateCondition [("c", PyVal.str "xy")]
      (some (.cmp .gt "c" (.float (.fin 3)))) = .error "TypeError" :=
  c4_amended_fallback.2.2 [("c", PyVal.str "xy")] "c" "xy" 3 .gt
    (Or.inr (Or.inl rfl)) (by decide) (by decide)

/-- C7: with no WHERE and no LIMIT, `SELECT * FROM t` returns exactly the
rows of `t` with duplicates removed — two rows being duplicates iff their
full column-value sets agree irrespective of key ordering — keeping first
occurrences, in the original relative order. -/
theorem c7_select_star_dedup (tables : TableStore) (tname : String) (t : List Row)
    (h : listDictGet tables tname = some t) :
    selectRows tables tname .star none none = .ok (some (specDedup t)) := by
  unfold selectRows
  rw [h]
  dsimp only
  by_cases ht : t.isEmpty = true
  · rw [if_pos ht]
    have hnil : t = [] := by simpa [List.isEmpty_iff] using ht
    subst hnil
    rfl
  · rw [if_neg ht, filterRows_none_eq [] t]
    dsimp only [applyProjection]
    rw [codeDedup_eq_specDedup]
    have hfilter : t.filter (fun r => !decide (rowKey r ∈ ([] : List Row))) = t := by
      simp
    rw [hfilter]

/-- C7, witness: the theorem applied to a concrete table with a permuted
duplicate row, the deduplication evaluated out. -/
theorem c7_witness :
    selectRows
      [("t", [[("a", PyVal.str "1"), ("b", PyVal.str "2")],
              [("b", PyVal.str "2"), ("a", PyVal.str "1")],
              [("a", PyVal.str "3")]])] "t" .star none none =
      .ok (some [[("a", PyVal.str "1"), ("b", PyVal.str "2")],
                 [("a", PyVal.str "3")]]) :=
  (c7_select_star_dedup
    [("t", [[("a", PyVal.str "1"), ("b", PyVal.str "2")],
            [("b", PyVal.str "2"), ("a", PyVal.str "1")],
            [("a", PyVal.str "3")]])] "t"
    [[("a", PyVal.str "1"), ("b", PyVal.str "2")],
     [("b", PyVal.str "2"), ("a", PyVal.str "1")],
     [("a", PyVal.str "3")]] rfl).trans (by rfl)

/-- C8: a `SELECT * … LIMIT n` that returns a result returns at most `n`
rows, all satisfying the WHERE condition, in the order they appear in the
source table (a subsequence of it); a negative LIMIT, and a LIMIT string
that does not parse as an integer, are reported errors yielding an empty
result rather than aborting. -/
theorem c8_select_limit :
    (∀ (tables : TableStore) (tname : String) (t : List Row) (wc : Option Cond)
        (n : ℕ) (res : List Row),
      listDictGet tables tname = some t →
      selectRows tables tname .star wc (some (.float (.fin (n : ℚ)))) = .ok (some res) →
      res.length ≤ n ∧ res.Sublist t ∧ ∀ r ∈ res, evaluateCondition r wc = .ok true) ∧
    (∀ (tables : TableStore) (tname : String) (t : List Row) (wc : Option Cond)
        (z : ℤ) (fr : List Row),
      listDictGet tables tname = some t → filterRows wc [] t = .ok fr → z < 0 →
      selectRows tables tname .star wc (some (.float (.fin (z : ℚ)))) = .ok (some [])) ∧
    (∀ (tables : TableStore) (tname : String) (t : List Row) (wc : Option Cond)
        (fr : List Row),
      listDictGet tables tname = some t → filterRows wc [] t = .ok fr →
      selectRows tables tname .star wc (some (.str "-1x")) = .ok (some [])) := by
  refine ⟨?_, ?_, ?_⟩
  · intro tables tname t wc n res hget hsel
    unfold selectRows at hsel
    rw [hget] at hsel
    dsimp only at hsel
    by_cases ht : t.isEmpty = true
    · rw [if_pos ht] at hsel
      cases hsel
      exact ⟨by simp, by simp, by simp⟩
    · rw [if_neg ht] at hsel
      cases hfr : filterRows wc [] t with
      | error e => rw [hfr] at hsel; cases hsel
      | ok fr =>
        rw [hfr] at hsel
        dsimp only at hsel
        rw [show limitToInt (.float (.fin (n : ℚ))) = .val (n : ℤ) from by
          simp [limitToInt, qTrunc_natCast]] at hsel
        dsimp only at hsel
        rw [if_neg (by omega : ¬ ((n : ℤ) < 0))] at hsel
        dsimp only [applyProjection] at hsel
        rw [show ((n : ℤ)).toNat = n from by omega] at hsel
        cases hsel
        obtain ⟨hsub, hsat⟩ := filterRows_ok wc t [] fr hfr
        refine ⟨?_, ?_, ?_⟩
        · exact List.length_take_le _ _
        · exact (List.take_sublist _ _).trans hsub
        · intro r hr
          exact hsat r (List.take_subset _ _ hr)
  · intro tables tname t wc z fr hget hfr hz
    unfold selectRows
    rw [hget]
    dsimp only
    by_cases ht : t.isEmpty = true
    · rw [if_pos ht]
    · rw [if_neg ht, hfr]
      dsimp only
      rw [show limitToInt (.float (.fin (z : ℚ))) = .val z from by
        simp [limitToInt, qTrunc_intCast]]
      dsimp only
      rw [if_pos hz]
  · intro tables tname t wc fr hget hfr
    unfold selectRows
    rw [hget]
    dsimp only
    by_cases ht : t.isEmpty = true
    · rw [if_pos ht]
    · rw [if_neg ht, hfr]
      dsimp only
      rw [show limitToInt (.str "-1x") = .badCaught from by decide]

/-- C8, witness: a negative LIMIT on a concrete table yields an empty
result. -/
theorem c8_witness :
    selectRows [("t", [[("a", PyVal.str "1")]])] "t" .star none
      (some (.float (.fin ((-1 : ℤ) : ℚ)))) = .ok (some []) :=
  c8_select_limit.2.1 [("t", [[("a", PyVal.str "1")]])] "t" [[("a", PyVal.str "1")]] none
    (-1) [[("a", PyVal.str "1")]] rfl rfl (by norm_num)

/-- C10, counterexample: submitting a program consisting of exactly one
PROCEDURE definition binds nothing — the run fails while the parser is
being constructed, before any production (and so the reduce-time
assignment of `p_procedure_statement`) could ever fire, so no state at
all results, let alone one with the procedure bound. -/
theorem c10_counterexample :
    runProgram [] "PROCEDURE p DO PRINT TABLE x ; END ;" ⟨[], []⟩ =
      .error "Unable to build parser" := rfl

/-- C10, amended: in the committed source no PROCEDURE definition ever
takes effect, at parse time or at all, because the parser that would run
`p_procedure_statement` is never built (`yacc.yacc()` raises on the
undefined grammar symbols); the action as written would bind — or
rebind — the name to the body at reduce time, but it is unreachable
code. -/
theorem c10_no_parse_time_binding :
    (∀ (fs : FileSys) (input : String) (st : DBState),
      runProgram fs input st = .error "Unable to build parser") ∧
    (∀ (procs : ProcStore) (pname : String) (body : List Stmt),
      (pProcedureStatementAction procs pname body).1 = listDictSet procs pname body ∧
      listDictGet (pProcedureStatementAction procs pname body).1 pname = some body ∧
      (pProcedureStatementAction procs pname body).2 = .procedure pname body) := by
  refine ⟨fun fs input st => rfl, fun procs pname body => ⟨rfl, ?_, rfl⟩⟩
  exact listDictGet_set_self procs pname body

end CQL
